import Mathlib

/-!
Verification development for `scripts/check_availability.py`, a single-pass
appointment-availability checker.  Pure functions of the script are embedded
as Lean functions; machine strings are Lean `String`s (ASCII-scoped where the
Python originals are Unicode-aware, which is the alphabet the script actually
processes); Python integers are `Int`; fallible parses return `Option`, and
the one unguarded parse returns `Except`.  Each definition's doc comment
names the source function and lines it embeds.
-/

namespace CheckAvailability

/-- Python `str.strip()`: remove leading and trailing whitespace. -/
def pyStrip (s : String) : String :=
  String.mk (((s.toList.dropWhile Char.isWhitespace).reverse.dropWhile Char.isWhitespace).reverse)

/-- Python `str.rstrip()`: remove trailing whitespace. -/
def pyRstrip (s : String) : String :=
  String.mk ((s.toList.reverse.dropWhile Char.isWhitespace).reverse)

/-- The empty string, named so it can be passed as an argument. -/
def emptyS : String := ""

/-- The digits part of Python `int(str)`: a nonempty run of decimal digits. -/
def parseDigits (cs : List Char) : Option Nat :=
  if cs.isEmpty then none
  else if cs.all Char.isDigit then
    some (cs.foldl (fun a c => a * 10 + (c.toNat - 48)) 0)
  else none

/-- Python `int(s)` on a string: surrounding whitespace stripped, an optional
sign, then a nonempty run of decimal digits; anything else raises `ValueError`
(modelled as `none`). -/
def pyInt (s : String) : Option Int :=
  match (pyStrip s).toList with
  | '+' :: rest => (parseDigits rest).map (fun n => (n : Int))
  | '-' :: rest => (parseDigits rest).map (fun n => -(n : Int))
  | cs => (parseDigits cs).map (fun n => (n : Int))

/-- `read_env` (lines 12-18): `value` is the raw environment entry (`none` =
variable unset); an all-whitespace value falls back to the default. -/
def read_env (value : Option String) (default : Option String) : Option String :=
  match value with
  | none => default
  | some v => if pyStrip v = emptyS then default else some v

/-- `read_env(name, d) or d` for a string default `d`, the composite used at
lines 259-262 of `main` (the `or` only matters when `d` itself is falsy). -/
def readEnvD (value : Option String) (default : String) : String :=
  (read_env value (some default)).getD default

/-- `raw.replace(",", " ")` from `parse_location_ids` (line 22): the pattern
is the single comma character, so this is a character map. -/
def replaceCommas (cs : List Char) : List Char :=
  cs.map (fun c => if c = ',' then ' ' else c)

/-- Python `str.split()` with no argument (line 24): split on whitespace.
Runs of consecutive separators produce empty tokens here; Python drops them
itself, and the caller's `if not piece: continue` drops them in this model,
so the composite behaviour agrees. -/
def splitWs (cs : List Char) : List (List Char) :=
  cs.foldr
    (fun c acc =>
      if Char.isWhitespace c then [] :: acc
      else
        match acc with
        | [] => [[c]]
        | t :: ts => (c :: t) :: ts)
    []

/-- The characters stripped by `piece.strip("\"'")` (line 28): double quote
and apostrophe (character code 39). -/
def isQuoteChar (c : Char) : Bool := c == '"' || c == Char.ofNat 39

/-- `piece.strip("\"'")` (line 28): strip any run of quote characters from
both ends. -/
def stripQuotes (s : String) : String :=
  String.mk (((s.toList.dropWhile isQuoteChar).reverse.dropWhile isQuoteChar).reverse)

/-- `"".join(ch for ch in piece if ch.isdigit())` (line 29). -/
def digitsOf (s : String) : String :=
  String.mk (s.toList.filter Char.isDigit)

/-- The token stream of `parse_location_ids` (lines 22-26): replace commas by
spaces, split on whitespace, strip each piece, and skip empty pieces. -/
def pieces (raw : String) : List String :=
  ((splitWs (replaceCommas raw.toList)).map (fun t => pyStrip (String.mk t))).filter
    (fun p => p ≠ emptyS)

/-- `parse_location_ids` (lines 21-32): for each piece, strip surrounding
quotes, keep its digit characters, and append the result when nonempty. -/
def parse_location_ids (raw : String) : List String :=
  (pieces raw).filterMap (fun piece =>
    let digits := digitsOf (stripQuotes piece)
    if digits = emptyS then none else some digits)

/-- Concrete location-ID input from the spec's example (quotes doubled). -/
def exLocRaw : String := "22, 29a, \"33\", x"

/-- The literal string zero, a concrete `DATE_WINDOW_DAYS` value. -/
def exZero : String := "0"

/-- A concrete non-numeric configuration value. -/
def exAbc : String := "abc"

/-- The surviving middle token of the spec's location-ID example. -/
def ex29 : String := "29"

/-- Stable insertion step: place `x` after every earlier element whose key is
strictly smaller, i.e. before the first element not less than it.  With `lt`
the strict comparison on sort keys this is exactly Python's stable ascending
`sorted`. -/
def stableInsert {α : Type} (lt : α → α → Bool) (x : α) : List α → List α
  | [] => [x]
  | y :: ys => if lt y x then y :: stableInsert lt x ys else x :: y :: ys

/-- Python `sorted(l, key=k)` as a stable insertion sort; `lt a b` must be
`k a < k b`. -/
def stableSort {α : Type} (lt : α → α → Bool) (l : List α) : List α :=
  l.foldr (stableInsert lt) []

/-- The sort of `merge_ranges` (line 131): `sorted(slots, key=lambda x: x[0])`. -/
def sortByStart (l : List (Int × Int)) : List (Int × Int) :=
  stableSort (fun a b => decide (a.1 < b.1)) l

/-- The accumulation loop of `merge_ranges` (lines 132-138): `cur` is
`merged[-1]`; a later range starting exactly at `cur`'s end extends it,
anything else is appended unchanged. -/
def mergeInto (cur : Int × Int) : List (Int × Int) → List (Int × Int)
  | [] => [cur]
  | (s, e) :: rest =>
    if s = cur.2 then mergeInto (cur.1, e) rest else cur :: mergeInto (s, e) rest

/-- `merge_ranges` (lines 128-139): sort by start, then fold the adjacency
merge over the tail. -/
def merge_ranges (slots : List (Int × Int)) : List (Int × Int) :=
  match sortByStart slots with
  | [] => []
  | first :: rest => mergeInto first rest

example : merge_ranges [ ((0 : Int), (15 : Int)), (15, 30), (45, 60) ] = [ (0, 30), (45, 60) ] := by decide

example : merge_ranges [ ((0 : Int), (15 : Int)), (16, 30) ] = [ (0, 15), (16, 30) ] := by decide

example : merge_ranges [ ((0 : Int), (30 : Int)), (10, 20) ] = [ (0, 30), (10, 20) ] := by decide

example : merge_ranges [ ((0 : Int), (15 : Int)), (0, 15) ] = [ (0, 15), (0, 15) ] := by decide

theorem stableInsert_head_eq {α : Type} (lt : α → α → Bool) (x y : α) (ys : List α) :
    (stableInsert lt x (y :: ys)).head? = if lt y x then some y else some x := by
  by_cases h : lt y x <;> simp [stableInsert, h]

theorem chain'_stableInsert {α : Type} {lt : α → α → Bool}
    (asym : ∀ a b, lt a b = true → lt b a = false) (x : α) :
    ∀ l : List α, List.Chain' (fun a b => lt b a = false) l →
      List.Chain' (fun a b => lt b a = false) (stableInsert lt x l) := by
  intro l
  induction l with
  | nil => intro _; simp [stableInsert]
  | cons y ys ih =>
    intro h
    by_cases hyx : lt y x
    · simp only [stableInsert, hyx, if_true]
      refine List.chain'_cons'.mpr ⟨?_, ih h.tail⟩
      intro z hz
      cases ys with
      | nil =>
        simp [stableInsert] at hz
        subst hz
        exact asym _ _ hyx
      | cons w ws =>
        rw [stableInsert_head_eq] at hz
        by_cases hwx : lt w x
        · simp [hwx] at hz
          subst hz
          exact (List.chain'_cons.mp h).1
        · simp [hwx] at hz
          subst hz
          exact asym _ _ hyx
    · have hyx' : lt y x = false := by simpa using hyx
      simp only [stableInsert, hyx', Bool.false_eq_true, if_false]
      exact List.chain'_cons'.mpr ⟨fun z hz => by simp at hz; subst hz; exact hyx', h⟩

theorem chain'_stableSort {α : Type} {lt : α → α → Bool}
    (asym : ∀ a b, lt a b = true → lt b a = false) (l : List α) :
    List.Chain' (fun a b => lt b a = false) (stableSort lt l) := by
  induction l with
  | nil => simp [stableSort]
  | cons x xs ih => exact chain'_stableInsert asym x _ ih

theorem stableInsert_perm {α : Type} (lt : α → α → Bool) (x : α) :
    ∀ l : List α, (stableInsert lt x l).Perm (x :: l) := by
  intro l
  induction l with
  | nil => simp [stableInsert]
  | cons y ys ih =>
    by_cases h : lt y x
    · simp only [stableInsert, h, if_true]
      exact (ih.cons y).trans (List.Perm.swap x y ys)
    · have h' : lt y x = false := by simpa using h
      simp [stableInsert, h']

theorem stableSort_perm {α : Type} (lt : α → α → Bool) (l : List α) :
    (stableSort lt l).Perm l := by
  induction l with
  | nil => simp [stableSort]
  | cons x xs ih => exact (stableInsert_perm lt x _).trans (ih.cons x)

theorem stableSort_of_chain' {α : Type} {lt : α → α → Bool} :
    ∀ l : List α, List.Chain' (fun a b => lt b a = false) l → stableSort lt l = l := by
  intro l
  induction l with
  | nil => intro _; rfl
  | cons x xs ih =>
    intro h
    show stableInsert lt x (stableSort lt xs) = x :: xs
    rw [ih h.tail]
    cases xs with
    | nil => rfl
    | cons y ys =>
      have hxy : lt y x = false := (List.chain'_cons.mp h).1
      simp [stableInsert, hxy]

theorem mergeInto_props :
    ∀ (rest : List (Int × Int)) (cur : Int × Int),
      List.Chain' (fun a b : Int × Int => a.1 ≤ b.1) (cur :: rest) →
      List.Chain' (fun a b : Int × Int => a.1 ≤ b.1) (mergeInto cur rest) ∧
        List.Chain' (fun a b : Int × Int => b.1 ≠ a.2) (mergeInto cur rest) ∧
        ∃ e, (mergeInto cur rest).head? = some (cur.1, e) := by
  intro rest
  induction rest with
  | nil =>
    intro cur _
    exact ⟨by simp [mergeInto], by simp [mergeInto], ⟨cur.2, by simp [mergeInto]⟩⟩
  | cons p t ih =>
    intro cur h
    obtain ⟨s, e⟩ := p
    have hcs : cur.1 ≤ s := (List.chain'_cons.mp h).1
    have ht : List.Chain' (fun a b : Int × Int => a.1 ≤ b.1) ((s, e) :: t) :=
      (List.chain'_cons.mp h).2
    by_cases hse : s = cur.2
    · have hch : List.Chain' (fun a b : Int × Int => a.1 ≤ b.1) ((cur.1, e) :: t) := by
        refine List.chain'_cons'.mpr ⟨?_, ht.tail⟩
        intro z hz
        exact le_trans hcs ((List.chain'_cons'.mp ht).1 z hz)
      have hres := ih (cur.1, e) hch
      simpa [mergeInto, hse] using hres
    · obtain ⟨h1, h2, e', he'⟩ := ih (s, e) ht
      refine ⟨?_, ?_, ⟨cur.2, by simp [mergeInto, hse]⟩⟩
      · simp only [mergeInto, hse, if_false]
        refine List.chain'_cons'.mpr ⟨?_, h1⟩
        intro z hz
        rw [he'] at hz
        simp at hz
        subst hz
        exact hcs
      · simp only [mergeInto, hse, if_false]
        refine List.chain'_cons'.mpr ⟨?_, h2⟩
        intro z hz
        rw [he'] at hz
        simp at hz
        subst hz
        exact hse

theorem mergeInto_fixed :
    ∀ (rest : List (Int × Int)) (cur : Int × Int),
      List.Chain' (fun a b : Int × Int => b.1 ≠ a.2) (cur :: rest) →
      mergeInto cur rest = cur :: rest := by
  intro rest
  induction rest with
  | nil => intro cur _; rfl
  | cons p t ih =>
    intro cur h
    obtain ⟨s, e⟩ := p
    have hse : s ≠ cur.2 := (List.chain'_cons.mp h).1
    simp only [mergeInto, hse, if_false]
    rw [ih (s, e) (List.chain'_cons.mp h).2]

theorem slotLt_asym :
    ∀ a b : Int × Int, decide (a.1 < b.1) = true → decide (b.1 < a.1) = false := by
  intro a b h
  simp at h ⊢
  omega

theorem merge_ranges_chains (slots : List (Int × Int)) :
    List.Chain' (fun a b : Int × Int => a.1 ≤ b.1) (merge_ranges slots) ∧
      List.Chain' (fun a b : Int × Int => b.1 ≠ a.2) (merge_ranges slots) := by
  have hs := chain'_stableSort slotLt_asym slots
  have hs' : List.Chain' (fun a b : Int × Int => a.1 ≤ b.1) (sortByStart slots) := by
    refine hs.imp ?_
    intro a b hab
    simp at hab
    omega
  cases hsort : sortByStart slots with
  | nil => simp [merge_ranges, hsort]
  | cons f rest =>
    rw [hsort] at hs'
    have hres := mergeInto_props rest f hs'
    simp only [merge_ranges, hsort]
    exact ⟨hres.1, hres.2.1⟩

theorem merge_ranges_sorted_fixed (slots : List (Int × Int)) :
    sortByStart (merge_ranges slots) = merge_ranges slots := by
  have hle := (merge_ranges_chains slots).1
  refine stableSort_of_chain' _ (hle.imp ?_)
  intro a b hab
  simp
  omega

/-- The non-overlap reading of the `MergedRange` invariant: two half-open
minute ranges intersect in no point. -/
def RangesDisjoint (a b : Int × Int) : Prop := a.2 ≤ b.1 ∨ b.2 ≤ a.1

/-- C1 (counterexample): two identical kept slots — e.g. the same 15-minute
slot listed twice by the API — pass through `merge_ranges` unchanged, and the
resulting consecutive ranges overlap, refuting pairwise non-overlap. -/
theorem merge_ranges_overlap_counterexample :
    merge_ranges [ ((0 : Int), (15 : Int)), (0, 15) ] = [ (0, 15), (0, 15) ] ∧
      ¬ List.Pairwise RangesDisjoint [ ((0 : Int), (15 : Int)), (0, 15) ] := by
  constructor
  · decide
  · intro h
    have := (List.pairwise_cons.mp h).1 (0, 15) (by simp)
    rcases this with h1 | h1 <;> omega

/-- C1 (amended): the output of `merge_ranges` has non-decreasing start
minutes and no two consecutive ranges touch end-to-start; pairwise
non-overlap is not guaranteed. -/
theorem merge_ranges_invariant (slots : List (Int × Int)) :
    List.Chain' (fun a b : Int × Int => a.1 ≤ b.1) (merge_ranges slots) ∧
      List.Chain' (fun a b : Int × Int => b.1 ≠ a.2) (merge_ranges slots) :=
  merge_ranges_chains slots

/-- C3: `merge_ranges` is idempotent on every input list, and the spec's
concrete example merges as stated. -/
theorem merge_ranges_idempotent :
    (∀ slots : List (Int × Int), merge_ranges (merge_ranges slots) = merge_ranges slots) ∧
      merge_ranges [ ((0 : Int), (15 : Int)), (15, 30), (45, 60) ] = [ (0, 30), (45, 60) ] := by
  constructor
  · intro slots
    have hnt := (merge_ranges_chains slots).2
    have hsorted := merge_ranges_sorted_fixed slots
    cases hm : merge_ranges slots with
    | nil =>
      rw [hm] at hsorted
      simp [merge_ranges, hsorted]
    | cons f rest =>
      rw [hm] at hsorted hnt
      simp only [merge_ranges, hsorted]
      exact mergeInto_fixed rest f hnt
  · decide

/-- C8: after the ascending sort, the second of two kept ranges is merged
into the first exactly when its start equals the first one's end; the spec's
one-minute-gap example stays two ranges. -/
theorem merge_ranges_adjacency_only (a b c d : Int) (h : a ≤ c) :
    merge_ranges [ (a, b), (c, d) ] =
      (if c = b then [ (a, d) ] else [ (a, b), (c, d) ]) ∧
      merge_ranges [ ((0 : Int), (15 : Int)), (16, 30) ] = [ (0, 15), (16, 30) ] := by
  constructor
  · have hlt : decide (c < a) = false := by simp; omega
    simp only [merge_ranges, sortByStart, stableSort, List.foldr, stableInsert, hlt,
      Bool.false_eq_true, if_false]
    by_cases hcb : c = b
    · simp [mergeInto, hcb]
    · simp [mergeInto, hcb]
  · decide

/-- The date-window filter of `build_summary` (lines 165, 179-181): truncate
`now_epoch` to midnight by floor division, take the floor day difference, and
keep the day iff the filter is unset or the difference lies in `[0, w]`. -/
def window_pass (window_days : Option Int) (now_epoch avail_midnight : Int) : Bool :=
  let now_midnight := (Int.fdiv now_epoch 86400) * 86400
  match window_days with
  | none => true
  | some w =>
    let dd := Int.fdiv (avail_midnight - now_midnight) 86400
    decide (0 ≤ dd ∧ dd ≤ w)

/-- `window_days` from `main` (lines 276-279): `int(read_env(...) or 0) or
None` under `try/except` — unset, unparsable, and zero all yield `none`. -/
def parse_window_days (raw : Option String) : Option Int :=
  match read_env raw none with
  | none => none
  | some v =>
    match pyInt v with
    | none => none
    | some n => if n = 0 then none else some n

/-- A blank string never parses as a Python integer. -/
theorem pyInt_of_blank {v : String} (h : pyStrip v = emptyS) : pyInt v = none := by
  unfold pyInt
  rw [h]
  rfl

/-- C7: with a configured window `w`, a day at whole-day offset
`a - fdiv now 86400` from now qualifies iff that offset is in `[0, w]`
(every availability midnight is a whole multiple of 86400 seconds); the
spec's offsets `-1..3` under `w = 2` qualify exactly at `0, 1, 2`. -/
theorem date_window_filter (w now_epoch a : Int) :
    (window_pass (some w) now_epoch (86400 * a) =
      decide (0 ≤ a - Int.fdiv now_epoch 86400 ∧ a - Int.fdiv now_epoch 86400 ≤ w)) ∧
    ([ (-1 : Int), 0, 1, 2, 3 ].map (fun o => window_pass (some 2) 0 (86400 * o)) =
      [ false, true, true, true, false ]) := by
  constructor
  · show decide _ = decide _
    have h1 : 86400 * a - Int.fdiv now_epoch 86400 * 86400 =
        86400 * (a - Int.fdiv now_epoch 86400) := by ring
    rw [h1, Int.mul_fdiv_cancel_left _ (by omega)]
  · decide

/-- C10: a `DATE_WINDOW_DAYS` value parsing to `0`, or failing to parse,
disables the window filter entirely — even a day strictly in the past passes
— whereas an actual window of `0` would reject past days. -/
theorem window_zero_disables :
    (∀ v : String, pyInt v = some 0 → parse_window_days (some v) = none) ∧
    (∀ v : String, pyInt v = none → parse_window_days (some v) = none) ∧
    (∀ now_epoch avail_midnight : Int, window_pass none now_epoch avail_midnight = true) ∧
    window_pass (parse_window_days (some exZero)) 0 (86400 * (-1)) = true ∧
    window_pass (some 0) 0 (86400 * (-1)) = false := by
  refine ⟨?_, ?_, fun _ _ => rfl, by decide, by decide⟩
  · intro v hv
    unfold parse_window_days read_env
    by_cases h : pyStrip v = emptyS
    · rw [pyInt_of_blank h] at hv
      exact absurd hv (by simp)
    · simp only [h, if_false]
      rw [hv]
      rfl
  · intro v hv
    unfold parse_window_days read_env
    by_cases h : pyStrip v = emptyS
    · simp [h]
    · simp only [h, if_false]
      rw [hv]

/-- Witness for C10: the concrete strings `"0"` and `"abc"` both disable the
window filter. -/
theorem window_zero_disables_witness :
    pyInt exZero = some 0 ∧ parse_window_days (some exZero) = none ∧
      pyInt exAbc = none ∧ parse_window_days (some exAbc) = none :=
  ⟨by decide, window_zero_disables.1 exZero (by decide), by decide,
    window_zero_disables.2.1 exAbc (by decide)⟩

theorem filterMap_keepNonempty (f : String → String) :
    ∀ l : List String,
      l.filterMap (fun p =>
        let d := f p
        if d = emptyS then none else some d) =
      (l.map f).filter (fun d => d ≠ emptyS) := by
  intro l
  induction l with
  | nil => rfl
  | cons a t ih =>
    by_cases h : f a = emptyS <;>
      simp [List.filterMap_cons, h, ih]

/-- C6: every surviving token of `parse_location_ids` is nonempty and made of
digit characters only; the output is, in order, a sublist of the per-token
digit strings (so relative order is preserved and only digit-free tokens are
dropped); and the spec's example parses as stated, `29a` surviving as `29`. -/
theorem parse_location_ids_spec :
    (∀ raw s, s ∈ parse_location_ids raw → s ≠ emptyS ∧ s.toList.all Char.isDigit = true) ∧
    (∀ raw, List.Sublist (parse_location_ids raw)
      ((pieces raw).map (fun p => digitsOf (stripQuotes p)))) ∧
    parse_location_ids exLocRaw = [ "22", "29", "33" ] := by
  have heq : ∀ raw, parse_location_ids raw =
      ((pieces raw).map (fun p => digitsOf (stripQuotes p))).filter (fun d => d ≠ emptyS) :=
    fun raw => filterMap_keepNonempty _ (pieces raw)
  refine ⟨?_, ?_, by decide⟩
  · intro raw s hs
    rw [heq] at hs
    have hmem := List.mem_filter.mp hs
    refine ⟨by simpa using hmem.2, ?_⟩
    obtain ⟨p, _, hp⟩ := List.mem_map.mp hmem.1
    rw [← hp]
    refine List.all_eq_true.mpr ?_
    intro c hc
    simp only [digitsOf] at hc
    exact (List.mem_filter.mp hc).2
  · intro raw
    rw [heq]
    exact List.filter_sublist _

/-- Witness for C6: the token `29a` of the example input survives as the
digit string `29`. -/
theorem parse_location_ids_spec_witness :
    ex29 ∈ parse_location_ids exLocRaw ∧ ex29 ≠ emptyS ∧
      ex29.toList.all Char.isDigit = true :=
  ⟨by decide, (parse_location_ids_spec.1 exLocRaw ex29 (by decide)).1,
    (parse_location_ids_spec.1 exLocRaw ex29 (by decide)).2⟩

/-- A parsed `datetime` as produced by `parse_api_datetime` (line 101-103):
`datetime.strptime(value, "%Y-%m-%dT%H:%M:%S")` in UTC. -/
structure PyDateTime where
  year : Nat
  month : Nat
  day : Nat
  hour : Nat
  minute : Nat
  second : Nat
deriving DecidableEq, Repr

/-- Numeric value of a run of decimal digits. -/
def digitVal (cs : List Char) : Nat :=
  cs.foldl (fun a c => a * 10 + (c.toNat - 48)) 0

/-- Gregorian leap-year rule used by `datetime`. -/
def isLeapYear (y : Nat) : Bool :=
  y % 4 = 0 && (y % 100 ≠ 0 || y % 400 = 0)

/-- Length of a month in the proleptic Gregorian calendar. -/
def daysInMonth (y m : Nat) : Nat :=
  if m = 2 then (if isLeapYear y then 29 else 28)
  else if m = 4 ∨ m = 6 ∨ m = 9 ∨ m = 11 then 30
  else 31

/-- `parse_api_datetime` (lines 101-103): `strptime` with format
`%Y-%m-%dT%H:%M:%S`.  `%Y` is exactly four digits; the other fields are one
or two digits; the whole string must be consumed; field ranges follow the
`strptime` patterns combined with the `datetime` constructor's validation
(month 1-12, day 1-days-in-month, hour 0-23, minute/second 0-59, year >= 1).
Any failure raises in Python and is `none` here. -/
def parse_api_datetime (s : String) : Option PyDateTime :=
  let cs := s.toList
  let ys := cs.takeWhile Char.isDigit
  let r1 := cs.dropWhile Char.isDigit
  if ys.length ≠ 4 then none
  else
    match r1 with
    | '-' :: r2 =>
      let ms := r2.takeWhile Char.isDigit
      let r3 := r2.dropWhile Char.isDigit
      if ms.length = 0 ∨ 2 < ms.length then none
      else
        match r3 with
        | '-' :: r4 =>
          let ds := r4.takeWhile Char.isDigit
          let r5 := r4.dropWhile Char.isDigit
          if ds.length = 0 ∨ 2 < ds.length then none
          else
            match r5 with
            | 'T' :: r6 =>
              let hs := r6.takeWhile Char.isDigit
              let r7 := r6.dropWhile Char.isDigit
              if hs.length = 0 ∨ 2 < hs.length then none
              else
                match r7 with
                | ':' :: r8 =>
                  let mins := r8.takeWhile Char.isDigit
                  let r9 := r8.dropWhile Char.isDigit
                  if mins.length = 0 ∨ 2 < mins.length then none
                  else
                    match r9 with
                    | ':' :: r10 =>
                      let ss := r10.takeWhile Char.isDigit
                      let r11 := r10.dropWhile Char.isDigit
                      if ss.length = 0 ∨ 2 < ss.length ∨ r11 ≠ [] then none
                      else
                        let y := digitVal ys
                        let mo := digitVal ms
                        let d := digitVal ds
                        let h := digitVal hs
                        let mi := digitVal mins
                        let sec := digitVal ss
                        if 1 ≤ y ∧ 1 ≤ mo ∧ mo ≤ 12 ∧ 1 ≤ d ∧ d ≤ daysInMonth y mo ∧
                            h ≤ 23 ∧ mi ≤ 59 ∧ sec ≤ 59 then
                          some ⟨ y, mo, d, h, mi, sec ⟩
                        else none
                    | _ => none
                | _ => none
            | _ => none
        | _ => none
    | _ => none

/-- A scalar JSON value as produced by `json.loads`; composite values
(arrays, objects) and non-integer numbers do not occur in the slot fields
this model covers. -/
inductive JVal where
  | null : JVal
  | bool (b : Bool) : JVal
  | num (n : Int) : JVal
  | str (s : String) : JVal
deriving DecidableEq

/-- Python truthiness of a scalar JSON value. -/
def truthy : JVal → Bool
  | JVal.null => false
  | JVal.bool b => b
  | JVal.num n => decide (n ≠ 0)
  | JVal.str s => decide (s ≠ emptyS)

/-- Python `int(v)` on a scalar JSON value: `None` raises `TypeError`. -/
def pyIntOfJVal : JVal → Option Int
  | JVal.null => none
  | JVal.bool b => some (if b then 1 else 0)
  | JVal.num n => some n
  | JVal.str s => pyInt s

/-- The Python `x or d` coalescing: `d` exactly when `x` is absent or falsy. -/
def or_default (v : Option JVal) (d : JVal) : JVal :=
  match v with
  | none => d
  | some j => if truthy j then j else d

/-- One raw slot of a day's `AvailableTimeSlots` list: the two fields the
script reads (line 206-207), `none` meaning the key is absent. -/
structure Slot where
  StartDateTime : Option JVal
  Duration : Option JVal
deriving DecidableEq

/-- The time-of-day window test of line 210:
`(tf is None or start_min >= tf) and (tt is None or start_min < tt)`. -/
def window_ok (tf tt : Option Int) (start_min : Int) : Bool :=
  (match tf with
    | none => true
    | some a => decide (a ≤ start_min)) &&
  (match tt with
    | none => true
    | some b => decide (start_min < b))

/-- The per-slot body of `build_summary`'s collection loop (lines 204-213):
parse `StartDateTime` (any exception skips the slot), convert
`Duration or 15` with `int()` (any exception skips the slot), and keep
`(start_min, start_min + dur)` when the time-of-day window admits it. -/
def slotRange (tf tt : Option Int) (s : Slot) : Option (Int × Int) :=
  match s.StartDateTime with
  | some (JVal.str v) =>
    match parse_api_datetime v with
    | some dt =>
      match pyIntOfJVal (or_default s.Duration (JVal.num 15)) with
      | some dur =>
        let start_min : Int := (dt.hour : Int) * 60 + (dt.minute : Int)
        if window_ok tf tt start_min then some (start_min, start_min + dur) else none
      | none => none
    | none => none
  | _ => none

/-- The whole collection loop of lines 203-213 over a day's slot list. -/
def collect_ranges (tf tt : Option Int) (slots : List Slot) : List (Int × Int) :=
  slots.filterMap (slotRange tf tt)

/-- A well-formed `StartDateTime` from the API. -/
def exGoodSDT : String := "2025-09-17T13:30:00"

example : parse_api_datetime exGoodSDT = some ⟨ 2025, 9, 17, 13, 30, 0 ⟩ := by decide

/-- `Duration` absent or falsy, the cases Python's `or 15` defaults. -/
def falsyDur (o : Option JVal) : Bool :=
  match o with
  | none => true
  | some j => !(truthy j)

/-- C2 (counterexample): a slot whose `StartDateTime` is valid but whose
`Duration` is the non-numeric string `abc` is dropped by the collection loop
(`int("abc")` raises and the `except` clause skips the slot), not kept with
the default duration 15. -/
theorem slot_invalid_duration_dropped :
    parse_api_datetime exGoodSDT = some ⟨ 2025, 9, 17, 13, 30, 0 ⟩ ∧
      slotRange none none ⟨ some (JVal.str exGoodSDT), some (JVal.str exAbc) ⟩ = none := by
  decide

/-- C2 (amended): for a slot with a valid `StartDateTime`, an absent or falsy
`Duration` defaults to 15 and the slot is kept (subject only to the
time-of-day window); a `Duration` that is a truthy non-numeric string makes
`int()` raise and the slot is dropped. -/
theorem slot_duration_default (tf tt : Option Int) (v : String) (dt : PyDateTime)
    (h : parse_api_datetime v = some dt) :
    (∀ dur, falsyDur dur = true →
      slotRange tf tt ⟨ some (JVal.str v), dur ⟩ =
        (if window_ok tf tt ((dt.hour : Int) * 60 + (dt.minute : Int)) then
          some ((dt.hour : Int) * 60 + (dt.minute : Int),
            (dt.hour : Int) * 60 + (dt.minute : Int) + 15)
        else none)) ∧
    (∀ ds : String, ds ≠ emptyS → pyInt ds = none →
      slotRange tf tt ⟨ some (JVal.str v), some (JVal.str ds) ⟩ = none) := by
  constructor
  · intro dur hdur
    have hor : or_default dur (JVal.num 15) = JVal.num 15 := by
      cases dur with
      | none => rfl
      | some j =>
        simp only [falsyDur, Bool.not_eq_true'] at hdur
        simp [or_default, hdur]
    simp [slotRange, h, hor, pyIntOfJVal]
  · intro ds hne hnum
    have htr : truthy (JVal.str ds) = true := by simp [truthy, hne]
    simp [slotRange, h, or_default, htr, pyIntOfJVal, hnum]

/-- Witness for C2: the concrete valid slot with absent `Duration` is kept as
the range 13:30-13:45 (minutes 810-825), and the same slot with `Duration`
equal to `abc` is dropped. -/
theorem slot_duration_default_witness :
    parse_api_datetime exGoodSDT = some ⟨ 2025, 9, 17, 13, 30, 0 ⟩ ∧
      falsyDur none = true ∧
      slotRange none none ⟨ some (JVal.str exGoodSDT), none ⟩ = some (810, 825) ∧
      exAbc ≠ emptyS ∧ pyInt exAbc = none ∧
      slotRange none none ⟨ some (JVal.str exGoodSDT), some (JVal.str exAbc) ⟩ = none := by
  refine ⟨by decide, by decide, ?_, by decide, by decide, ?_⟩
  · rw [(slot_duration_default none none exGoodSDT ⟨ 2025, 9, 17, 13, 30, 0 ⟩ (by decide)).1
      none (by decide)]
    decide
  · exact (slot_duration_default none none exGoodSDT ⟨ 2025, 9, 17, 13, 30, 0 ⟩ (by decide)).2
      exAbc (by decide) (by decide)

/-- The one unguarded configuration parse, line 286 of `main`:
`int(read_env("NOW_EPOCH", fallback))` with no surrounding `try`; `fallback`
is `str(int(datetime.now().timestamp()))`.  An unparsable value raises
`ValueError`, modelled as `Except.error`. -/
def now_epoch_parse (raw : Option String) (fallback : String) : Except String Int :=
  let v := readEnvD raw fallback
  match pyInt v with
  | some n => Except.ok n
  | none => Except.error v

/-- Whether the `NOW_EPOCH` parse raises (propagating to a non-zero exit). -/
def raisesError (x : Except String Int) : Bool :=
  match x with
  | Except.error _ => true
  | Except.ok _ => false

/-- A concrete well-formed epoch fallback string. -/
def exEpochFallback : String := "1758067200"

/-- C4 (counterexample): with `NOW_EPOCH` set to the non-numeric string
`abc`, the line-286 parse raises `ValueError`; the exception is unhandled, so
the run does not reach a normal exit-0 completion. -/
theorem now_epoch_crash_counterexample :
    now_epoch_parse (some exAbc) exEpochFallback = Except.error exAbc := by
  rfl

/-- C4 (amended): parsing of `NOW_EPOCH` is the only undefended parse: with a
well-formed fallback it raises exactly when the variable is set to a
non-blank value that is not a valid integer; blank, unset, or integer values
all complete normally. -/
theorem now_epoch_defensive_except (raw : Option String) (fallback : String)
    (hfb : (pyInt fallback).isSome = true) :
    raisesError (now_epoch_parse raw fallback) = true ↔
      ∃ v, raw = some v ∧ pyStrip v ≠ emptyS ∧ pyInt v = none := by
  obtain ⟨n, hn⟩ := Option.isSome_iff_exists.mp hfb
  cases raw with
  | none =>
    have h1 : now_epoch_parse none fallback = Except.ok n := by
      simp [now_epoch_parse, readEnvD, read_env, hn]
    rw [h1]
    constructor
    · intro habs
      simp [raisesError] at habs
    · rintro ⟨w, hw, _, _⟩
      simp at hw
  | some v =>
    by_cases hb : pyStrip v = emptyS
    · have h1 : now_epoch_parse (some v) fallback = Except.ok n := by
        simp [now_epoch_parse, readEnvD, read_env, hb, hn]
      rw [h1]
      constructor
      · intro habs
        simp [raisesError] at habs
      · rintro ⟨w, hw, hwne, _⟩
        injection hw with hw'
        subst hw'
        exact absurd hb hwne
    · have hEnv : readEnvD (some v) fallback = v := by
        simp [readEnvD, read_env, hb]
      cases hv : pyInt v with
      | none =>
        have h1 : now_epoch_parse (some v) fallback = Except.error v := by
          simp [now_epoch_parse, hEnv, hv]
        rw [h1]
        constructor
        · intro _
          exact ⟨v, rfl, hb, hv⟩
        · intro _
          rfl
      | some m =>
        have h1 : now_epoch_parse (some v) fallback = Except.ok m := by
          simp [now_epoch_parse, hEnv, hv]
        rw [h1]
        constructor
        · intro habs
          simp [raisesError] at habs
        · rintro ⟨w, hw, _, hwnum⟩
          injection hw with hw'
          subst hw'
          rw [hv] at hwnum
          simp at hwnum

/-- Witness for C4: with fallback string zero and `NOW_EPOCH` equal to the
non-numeric `abc`, the parse raises. -/
theorem now_epoch_defensive_except_witness :
    (pyInt exZero).isSome = true ∧
      (raisesError (now_epoch_parse (some exAbc) exZero) = true ↔
        ∃ v, some exAbc = some v ∧ pyStrip v ≠ emptyS ∧ pyInt v = none) :=
  ⟨by decide, now_epoch_defensive_except (some exAbc) exZero (by decide)⟩

/-- A single newline. -/
def nlS : String := "\n"

/-- A blank-line separator. -/
def nl2S : String := "\n\n"

/-- Contents of the `found` flag file on success. -/
def trueS : String := "true"

/-- Contents of the `found` flag file on failure. -/
def falseS : String := "false"

/-- The fixed missing-configuration summary written at line 268. -/
def missing_config_summary : String := "Missing BEARER_TOKEN or LOCATION_IDS\n"

/-- The fixed footer appended at lines 327-328. -/
def footer_line : String := "new york dmv appointment: @https://public.nydmvreservation.com/"

/-- One location as seen by `main`'s per-location loop (lines 293-309):
its display label and the outcome of fetch-plus-summarise.  `fetched = none`
models a falsy `resp` (fetch failure or empty payload, line 296);
`fetched = some (lines, latest)` models `build_summary`'s return value.
`build_summary` returns `entries[0][0]` as `latest` whenever `lines` is
nonempty, so in every reachable state a nonempty `lines` comes with a `some`
latest date (modelled as an epoch integer). -/
structure LocItem where
  label : String
  fetched : Option (List String × Option Int)
deriving DecidableEq

/-- The fetch-failure block of line 297. -/
def noDataBlock (label : String) : String :=
  "**Location " ++ label ++ "**" ++ nlS

/-- The no-availability block of line 309. -/
def emptyBlock (label : String) : String :=
  "**" ++ label ++ "**" ++ nlS

/-- The dated block of line 306. -/
def datedBlock (label : String) (lines : List String) : String :=
  "**" ++ label ++ "**" ++ nlS ++ String.intercalate nlS lines ++ nlS

/-- The per-location loop of `main` (lines 293-309), returning
`(location_blocks, all_lines, found_any)` in iteration order. -/
def processLocs : List LocItem → List (Option Int × String) × List String × Bool
  | [] => ([], [], false)
  | it :: rest =>
    let r := processLocs rest
    match it.fetched with
    | none => (r.1, noDataBlock it.label :: r.2.1, r.2.2)
    | some (ls, latest) =>
      if ls = [] then (r.1, emptyBlock it.label :: r.2.1, r.2.2)
      else ((latest, datedBlock it.label ls) :: r.1, r.2.1, true)

/-- The sort key of line 315:
`(x[0] is None, -(x[0].timestamp() if x[0] else 0))`. -/
def blockKey (b : Option Int × String) : Bool × Int :=
  (b.1.isNone, -(b.1.getD 0))

/-- Strict lexicographic comparison of the line-315 sort keys
(`False < True` on the first component). -/
def blockLt (a b : Option Int × String) : Bool :=
  (!(blockKey a).1 && (blockKey b).1) ||
    (((blockKey a).1 == (blockKey b).1) && decide ((blockKey a).2 < (blockKey b).2))

/-- `location_blocks.sort(key=...)` of line 315: Python's stable ascending
sort by the key. -/
def sort_blocks : List (Option Int × String) → List (Option Int × String) :=
  stableSort blockLt

/-- The order in which location blocks appear in the final summary (lines
316-324): sorted dated blocks first, then `all_lines` in input order. -/
def orderedBlocks (items : List LocItem) : List String :=
  (sort_blocks (processLocs items).1).map Prod.snd ++ (processLocs items).2.1

theorem blockLt_asym : ∀ a b, blockLt a b = true → blockLt b a = false := by
  intro a b h
  unfold blockLt at h ⊢
  cases ha : (blockKey a).1 <;> cases hb : (blockKey b).1 <;>
    simp [ha, hb] at h ⊢ <;> omega

theorem chain'_mono_mem {β : Type} {R S : β → β → Prop} {Q : β → Prop} :
    ∀ {l : List β}, List.Chain' R l → (∀ x ∈ l, Q x) →
      (∀ a b, R a b → Q a → Q b → S a b) → List.Chain' S l := by
  intro l
  induction l with
  | nil => intro _ _ _; exact List.chain'_nil
  | cons x xs ih =>
    intro h hq himp
    refine List.chain'_cons'.mpr
      ⟨?_, ih h.tail (fun y hy => hq y (List.mem_cons_of_mem _ hy)) himp⟩
    intro y hy
    have hR := (List.chain'_cons'.mp h).1 y hy
    refine himp x y hR (hq x (List.mem_cons_self x xs)) (hq y ?_)
    cases xs with
    | nil => simp at hy
    | cons z zs =>
      simp at hy
      subst hy
      exact List.mem_cons_of_mem _ (List.mem_cons_self z zs)

theorem processLocs_lines_eq (items : List LocItem) :
    (processLocs items).2.1 = items.filterMap (fun it =>
      match it.fetched with
      | none => some (noDataBlock it.label)
      | some (ls, _) => if ls = [] then some (emptyBlock it.label) else none) := by
  induction items with
  | nil => rfl
  | cons it rest ih =>
    cases hf : it.fetched with
    | none => simp [processLocs, hf, List.filterMap_cons, ih]
    | some p =>
      obtain ⟨ls, latest⟩ := p
      by_cases hls : ls = [] <;> simp [processLocs, hf, hls, List.filterMap_cons, ih]

theorem processLocs_blocks_some (items : List LocItem)
    (h : ∀ it ∈ items, ∀ ls lat, it.fetched = some (ls, lat) → ls ≠ [] → lat.isSome = true) :
    ∀ b ∈ (processLocs items).1, b.1.isSome = true := by
  induction items with
  | nil => intro b hb; simp [processLocs] at hb
  | cons it rest ih =>
    intro b hb
    have hrest := ih (fun x hx => h x (List.mem_cons_of_mem _ hx))
    cases hf : it.fetched with
    | none =>
      simp only [processLocs, hf] at hb
      exact hrest b hb
    | some p =>
      obtain ⟨ls, lat⟩ := p
      by_cases hls : ls = []
      · simp only [processLocs, hf, hls, if_true] at hb
        exact hrest b hb
      · simp only [processLocs, hf, hls, if_false] at hb
        rcases List.mem_cons.mp hb with hb1 | hb1
        · subst hb1
          exact h it (List.mem_cons_self it rest) ls lat hf hls
        · exact hrest b hb1

/-- C5: the assembled block order is all dated blocks first (sorted) then
the no-availability blocks; the sorted dated blocks are in descending order
of their latest qualifying date; they are a permutation of the dated blocks
collected in input order; and the trailing blocks are exactly the
fetch-failure and no-availability blocks in original input order. -/
theorem loc_block_ordering (items : List LocItem)
    (h : ∀ it ∈ items, ∀ ls lat, it.fetched = some (ls, lat) → ls ≠ [] → lat.isSome = true) :
    orderedBlocks items =
        (sort_blocks (processLocs items).1).map Prod.snd ++ (processLocs items).2.1 ∧
      List.Chain' (fun a b : Option Int × String => b.1.getD 0 ≤ a.1.getD 0)
        (sort_blocks (processLocs items).1) ∧
      (∀ b ∈ sort_blocks (processLocs items).1, b.1.isSome = true) ∧
      (sort_blocks (processLocs items).1).Perm (processLocs items).1 ∧
      (processLocs items).2.1 = items.filterMap (fun it =>
        match it.fetched with
        | none => some (noDataBlock it.label)
        | some (ls, _) => if ls = [] then some (emptyBlock it.label) else none) := by
  have hperm : (sort_blocks (processLocs items).1).Perm (processLocs items).1 :=
    stableSort_perm blockLt (processLocs items).1
  have hsome := processLocs_blocks_some items h
  have hall : ∀ b ∈ sort_blocks (processLocs items).1, b.1.isSome = true :=
    fun b hb => hsome b (hperm.mem_iff.mp hb)
  have hch := chain'_stableSort blockLt_asym (processLocs items).1
  refine ⟨rfl, ?_, hall, hperm, processLocs_lines_eq items⟩
  refine chain'_mono_mem hch hall ?_
  intro a b hR ha hb
  obtain ⟨ta, hta⟩ := Option.isSome_iff_exists.mp ha
  obtain ⟨tb, htb⟩ := Option.isSome_iff_exists.mp hb
  simp [blockLt, blockKey, hta, htb] at hR
  rw [hta, htb]
  simp only [Option.getD_some]
  omega

/-- Concrete labels and day lines for the C5 witness. -/
def exLabelA : String := "A"

def exLabelB : String := "B"

def exLabelC : String := "C"

def exLabelD : String := "D"

def exLineA : String := "  - 1970-01-06: 09:00-09:15"

def exLineC : String := "  - 1970-01-10: 09:00-09:15"

/-- Concrete location items: two dated locations (latest 5 and 9), one fetch
failure, one empty summary. -/
def exItems : List LocItem :=
  [ ⟨ exLabelA, some ([ exLineA ], some 5) ⟩,
    ⟨ exLabelB, none ⟩,
    ⟨ exLabelC, some ([ exLineC ], some 9) ⟩,
    ⟨ exLabelD, some ([], none) ⟩ ]

/-- Witness for C5 at a concrete four-location run. -/
theorem loc_block_ordering_witness :
    (∀ it ∈ exItems, ∀ ls lat, it.fetched = some (ls, lat) → ls ≠ [] → lat.isSome = true) ∧
      (orderedBlocks exItems =
          (sort_blocks (processLocs exItems).1).map Prod.snd ++ (processLocs exItems).2.1 ∧
        List.Chain' (fun a b : Option Int × String => b.1.getD 0 ≤ a.1.getD 0)
          (sort_blocks (processLocs exItems).1) ∧
        (∀ b ∈ sort_blocks (processLocs exItems).1, b.1.isSome = true) ∧
        (sort_blocks (processLocs exItems).1).Perm (processLocs exItems).1 ∧
        (processLocs exItems).2.1 = exItems.filterMap (fun it =>
          match it.fetched with
          | none => some (noDataBlock it.label)
          | some (ls, _) => if ls = [] then some (emptyBlock it.label) else none)) := by
  have hhyp : ∀ it ∈ exItems, ∀ ls lat, it.fetched = some (ls, lat) → ls ≠ [] →
      lat.isSome = true := by
    intro it hit ls lat hf hne
    fin_cases hit <;> simp_all <;> rw [← hf.2] <;> rfl
  exact ⟨hhyp, loc_block_ordering exItems hhyp⟩

/-- The label expression of line 295: mapped name plus id when the name map
has a truthy entry, otherwise the raw id. -/
def label_of (nm : List (String × String)) (loc : String) : String :=
  match nm.lookup loc with
  | some name => if name = emptyS then loc else name ++ " (" ++ loc ++ ")"
  | none => loc

/-- The summary assembly of lines 320-328: join each nonempty part with
newlines and right-strip it, join the parts with blank lines, append the
footer, right-strip, and terminate with a newline. -/
def assemble_summary (sortedTexts lines : List String) : String :=
  let part1 := if sortedTexts = [] then [] else [ pyRstrip (String.intercalate nlS sortedTexts) ]
  let part2 := if lines = [] then [] else [ pyRstrip (String.intercalate nlS lines) ]
  let parts := (part1 ++ part2).filter (fun p => p ≠ emptyS)
  pyRstrip (String.intercalate nl2S parts ++ nl2S ++ footer_line) ++ nlS

/-- Observable outcome of one run of `main` (lines 251-347): the two output
files, the exit code, and the location ids the fetch loop iterates over. -/
structure RunResult where
  foundFile : String
  summaryFile : String
  exitCode : Int
  fetched : List String
deriving DecidableEq

/-- `main` (lines 251-347) up to its observable outputs: environment values
for `BEARER_TOKEN` and `LOCATION_IDS`, the parsed name map, and a fetch
oracle giving each location's fetch-plus-summarise outcome (filter
parameters are internal to the oracle).  The webhook is outside this model;
it does not affect the outputs modelled here. -/
def run_main (envTok envLocs : Option String) (nm : List (String × String))
    (fetch : String → Option (List String × Option Int)) : RunResult :=
  let token := readEnvD envTok emptyS
  let raw := readEnvD envLocs emptyS
  if token = emptyS ∨ raw = emptyS then
    { foundFile := falseS, summaryFile := missing_config_summary, exitCode := 0, fetched := [] }
  else
    let ids := parse_location_ids raw
    let items := ids.map (fun loc => LocItem.mk (label_of nm loc) (fetch loc))
    let r := processLocs items
    let sortedTexts := (sort_blocks r.1).map Prod.snd
    { foundFile := if r.2.2 then trueS else falseS,
      summaryFile := assemble_summary sortedTexts r.2.1,
      exitCode := 0,
      fetched := ids }

/-- A fetch oracle that always fails. -/
def exNoFetch : String → Option (List String × Option Int) := fun _ => none

/-- A concrete bearer token. -/
def exTok : String := "token123"

/-- A `LOCATION_IDS` value that is non-blank but contains no digits. -/
def exJunkIds : String := "x"

/-- C9 (counterexample): with a non-blank `LOCATION_IDS` that parses to no
location id at all, the run does not write the missing-configuration
summary; it proceeds past the precondition check with an empty location
list (no fetches, `found` false, exit 0, footer-only summary). -/
theorem location_ids_raw_check_counterexample :
    parse_location_ids exJunkIds = [] ∧
      (run_main (some exTok) (some exJunkIds) [] exNoFetch).summaryFile ≠
        missing_config_summary ∧
      (run_main (some exTok) (some exJunkIds) [] exNoFetch).fetched = [] ∧
      (run_main (some exTok) (some exJunkIds) [] exNoFetch).foundFile = falseS ∧
      (run_main (some exTok) (some exJunkIds) [] exNoFetch).exitCode = 0 := by
  decide

/-- C9 (amended): the short circuit triggers exactly on the raw environment
values: a blank-or-unset `BEARER_TOKEN` or a blank-or-unset `LOCATION_IDS`
writes `false` to the found file and the fixed missing-configuration
summary and exits 0 before any fetching; a non-blank `LOCATION_IDS` whose
parse yields no ids instead proceeds, performing no fetches and producing
the footer-only summary with `found` false and exit 0. -/
theorem missing_config_short_circuit (envTok envLocs : Option String)
    (nm : List (String × String)) (fetch : String → Option (List String × Option Int)) :
    (readEnvD envTok emptyS = emptyS ∨ readEnvD envLocs emptyS = emptyS →
      run_main envTok envLocs nm fetch =
        { foundFile := falseS, summaryFile := missing_config_summary,
          exitCode := 0, fetched := [] }) ∧
    (readEnvD envTok emptyS ≠ emptyS → readEnvD envLocs emptyS ≠ emptyS →
      parse_location_ids (readEnvD envLocs emptyS) = [] →
      run_main envTok envLocs nm fetch =
        { foundFile := falseS, summaryFile := nl2S ++ footer_line ++ nlS,
          exitCode := 0, fetched := [] }) := by
  constructor
  · intro h
    simp only [run_main]
    rw [if_pos h]
  · intro h1 h2 h3
    have hcond : ¬(readEnvD envTok emptyS = emptyS ∨ readEnvD envLocs emptyS = emptyS) := by
      rintro (hc | hc)
      · exact h1 hc
      · exact h2 hc
    simp only [run_main]
    rw [if_neg hcond, h3]
    simp only [List.map_nil]
    rfl

/-- Witness for C9: an unset `LOCATION_IDS` with a set token short-circuits
to the missing-configuration outputs. -/
theorem missing_config_short_circuit_witness :
    (readEnvD (some exTok) emptyS = emptyS ∨ readEnvD none emptyS = emptyS) ∧
      run_main (some exTok) none [] exNoFetch =
        { foundFile := falseS, summaryFile := missing_config_summary,
          exitCode := 0, fetched := [] } :=
  ⟨Or.inr (by decide),
    (missing_config_short_circuit (some exTok) none [] exNoFetch).1 (Or.inr (by decide))⟩

/-- Witness for C8 at the spec's concrete one-minute-gap input. -/
theorem merge_ranges_adjacency_only_witness :
    merge_ranges [ ((0 : Int), (15 : Int)), (16, 30) ] =
      (if (16 : Int) = 15 then [ ((0 : Int), (30 : Int)) ] else [ (0, 15), (16, 30) ]) ∧
      merge_ranges [ ((0 : Int), (15 : Int)), (16, 30) ] = [ (0, 15), (16, 30) ] :=
  merge_ranges_adjacency_only 0 15 16 30 (by decide)

example : parse_location_ids exLocRaw = [ "22", "29", "33" ] := by decide

example : pyInt " -42 " = some (-42) := by decide

example : pyInt "abc" = none := by decide

example : pyInt "12a" = none := by decide

example : readEnvD (some "  ") emptyS = emptyS := by decide

end CheckAvailability
